import Mathlib

/-!
Shallow embedding of the workflow execution engine of this repository
(`backend/services/workflow_runner.py` together with the pure helpers it
uses from `backend/services/unbound_client.py`), and proofs checking the
specification's claims against it.

Python strings are modelled as Lean `String` / `List Char` (both count
code points, like Python `len`/indexing).  Python `json` values are
modelled by the inductive `PyVal`; `json_loads` models `json.loads` on
the JSON fragment the engine uses (floats and lone-surrogate escapes are
outside the model; no claim involves them).  A raised Python exception is
modelled as `Except.error`.
-/

/-- Lowercase every character (models Python `str.lower` on the ASCII
range, which is all the engine's inputs in the claims use). -/
def toLowerL (l : List Char) : List Char := l.map Char.toLower

/-- Substring occurrence test on character lists: `containsL pat s` is
true iff `pat` occurs contiguously in `s` (Python `pat in s`; true for
the empty pattern, as in Python). -/
def containsL (pat : List Char) : List Char → Bool
  | [] => pat.isEmpty
  | c :: rest => pat.isPrefixOf (c :: rest) || containsL pat rest

/-- Python `pat in s` on strings. -/
def strContainsStr (s pat : String) : Bool := containsL pat.data s.data

/-- Python `c in s` for a single character `c`. -/
def strContainsChar (s : String) (c : Char) : Bool := s.data.contains c

/-- Python `pat.lower() in s.lower()`: case-insensitive substring test. -/
def strContainsCI (s pat : String) : Bool :=
  containsL (toLowerL pat.data) (toLowerL s.data)

/-- Python `s[:n]` (first `n` characters). -/
def pyTake (n : Nat) (s : String) : String := String.mk (s.data.take n)

/-- Python `s[a:b]` for `0 ≤ a`, clamping like Python slices do. -/
def pySlice (s : String) (a b : Nat) : String :=
  String.mk ((s.data.drop a).take (b - a))

/-- Python `s.find(c)` for a single character, as `Option` (`none` = -1). -/
def firstIdxChar (s : String) (c : Char) : Option Nat :=
  s.data.findIdx? (· = c)

/-- Python `s.rfind(c)` for a single character, as `Option` (`none` = -1). -/
def lastIdxChar (s : String) (c : Char) : Option Nat :=
  match s.data.reverse.findIdx? (· = c) with
  | some i => some (s.data.length - 1 - i)
  | none => none

/-- Python `s.replace(pat, repl)` on character lists: replaces every
non-overlapping occurrence of `pat` left to right.  The fuel argument
only serves Lean's termination (the wrapper passes the list's length,
which always suffices because a replacement consumes at least one
character of a non-empty pattern); when it runs out, the rest of the
list is returned unchanged.  (For the empty pattern this returns `s`
unchanged; the engine only ever replaces the fixed non-empty
placeholder token.) -/
def replaceFromF (pat repl : List Char) : Nat → List Char → List Char
  | 0, l => l
  | n + 1, l =>
    match l with
    | [] => []
    | c :: rest =>
      if pat ≠ [] ∧ pat.isPrefixOf (c :: rest) then
        repl ++ replaceFromF pat repl n ((c :: rest).drop pat.length)
      else
        c :: replaceFromF pat repl n rest

/-- Python `s.replace(pat, repl)` on strings. -/
def strReplace (s pat repl : String) : String :=
  String.mk (replaceFromF pat.data repl.data s.data.length s.data)

/-- Python `s.split("\n")` on character lists. -/
def splitLinesL : List Char → List (List Char)
  | [] => [[]]
  | c :: rest =>
    if c = '\n' then [] :: splitLinesL rest
    else
      match splitLinesL rest with
      | [] => [[c]]
      | h :: t => (c :: h) :: t

/-- Python `s.split("\n")` on strings. -/
def splitLines (s : String) : List String := (splitLinesL s.data).map String.mk

/-- Python `"\n".join(lines)`. -/
def joinLines : List String → String
  | [] => ""
  | [s] => s
  | s :: rest => s ++ "\n" ++ joinLines rest

/-- Characters removed by Python `str.strip()` (ASCII whitespace; the
engine's inputs contain no other Unicode whitespace). -/
def isPyStripWs (c : Char) : Bool :=
  c = ' ' || c = '\t' || c = '\n' || c = '\r' || c = '\x0b' || c = '\x0c'

/-- Python `s.strip()`. -/
def pyStrip (s : String) : String :=
  String.mk (((s.data.dropWhile isPyStripWs).reverse.dropWhile isPyStripWs).reverse)

/-- Python `s.startswith("-")`. -/
def startsWithDash (s : String) : Bool :=
  match s.data with
  | c :: _ => c = '-'
  | [] => false

/-- Python values produced by `json.loads` on the JSON fragment the
engine uses.  JSON numbers are modelled as integers (no claim involves
floats); `true`/`false` parse to `bool`, which Python treats as an `int`
subtype where relevant. -/
inductive PyVal : Type where
  | null : PyVal
  | bool : Bool → PyVal
  | int : Int → PyVal
  | str : String → PyVal
  | arr : List PyVal → PyVal
  | obj : List (String × PyVal) → PyVal

/-- Python `dict` lookup `d.get(k)` on the association list of an `obj`
(`json.loads` keeps the last value for a duplicated key, so the last
binding wins). -/
def pyGet (kvs : List (String × PyVal)) (k : String) : Option PyVal :=
  match kvs with
  | [] => none
  | (k', v) :: rest =>
    match pyGet rest k with
    | some r => some r
    | none => if k' = k then some v else none

/-- Python `d.get(k, default)`: the default is used only when the key is
absent (a stored `null` is returned as `null`). -/
def pyGetD (kvs : List (String × PyVal)) (k : String) (d : PyVal) : PyVal :=
  (pyGet kvs k).getD d

/-- Python truthiness (`not v`) of a JSON value. -/
def pyFalsy : PyVal → Bool
  | .null => true
  | .bool b => !b
  | .int n => n == 0
  | .str s => s == ""
  | .arr l => l.isEmpty
  | .obj l => l.isEmpty

/-- Python `v == t` for a value that may be absent (`none` models Python
`None`): true exactly when the value is the string `t`. -/
def isStrEqO (v : Option PyVal) (t : String) : Bool :=
  match v with
  | some (.str s) => s = t
  | _ => false

/-- Python `v == t` comparing a JSON value with a string. -/
def isStrEqV (v : PyVal) (t : String) : Bool :=
  match v with
  | .str s => s = t
  | _ => false

/-- JSON insignificant whitespace skipping. -/
def skipWsL : List Char → List Char
  | [] => []
  | c :: r => if c = ' ' ∨ c = '\t' ∨ c = '\n' ∨ c = '\r' then skipWsL r else c :: r

/-- Hexadecimal digit value, for `\uXXXX` escapes. -/
def hexVal? (c : Char) : Option Nat :=
  if '0' ≤ c ∧ c ≤ '9' then some (c.toNat - '0'.toNat)
  else if 'a' ≤ c ∧ c ≤ 'f' then some (c.toNat - 'a'.toNat + 10)
  else if 'A' ≤ c ∧ c ≤ 'F' then some (c.toNat - 'A'.toNat + 10)
  else none

/-- JSON string escape sequences (after the backslash).  A `\u` escape
denoting an invalid scalar value (lone surrogate) is rejected, a
limitation of the model that no claim exercises. -/
def escChar? (e : Char) (r : List Char) : Option (Char × List Char) :=
  if e = '"' then some ('"', r)
  else if e = '\\' then some ('\\', r)
  else if e = '/' then some ('/', r)
  else if e = 'n' then some ('\n', r)
  else if e = 't' then some ('\t', r)
  else if e = 'r' then some ('\r', r)
  else if e = 'b' then some ('\x08', r)
  else if e = 'f' then some ('\x0c', r)
  else if e = 'u' then
    match r with
    | a :: b :: c :: d :: r2 =>
      match hexVal? a, hexVal? b, hexVal? c, hexVal? d with
      | some x, some y, some z, some w =>
        let code := ((x * 16 + y) * 16 + z) * 16 + w
        if Nat.isValidChar code then some (Char.ofNat code, r2) else none
      | _, _, _, _ => none
    | _ => none
  else none

/-- Digits of a JSON integer literal to a natural number. -/
def digitsToNat (ds : List Char) : Nat :=
  ds.foldl (fun acc c => acc * 10 + (c.toNat - '0'.toNat)) 0

/-- JSON number parsing, integers only: a fractional part or exponent is
outside the model (Python would parse a float; no claim involves one).
Leading zeros are rejected, as in strict JSON. -/
def parseNum (l : List Char) : Option (PyVal × List Char) :=
  let p := match l with
    | '-' :: r => (true, r)
    | _ => (false, l)
  let ds := p.2.takeWhile Char.isDigit
  let rest := p.2.dropWhile Char.isDigit
  if ds = [] then none
  else if ds.length > 1 ∧ ds.headD '0' = '0' then none
  else
    let v : Int := if p.1 then -(Int.ofNat (digitsToNat ds)) else Int.ofNat (digitsToNat ds)
    match rest with
    | c :: _ => if c = '.' ∨ c = 'e' ∨ c = 'E' then none else some (.int v, rest)
    | [] => some (.int v, rest)

mutual

/-- Fueled recursive-descent JSON value parser (models `json.loads`
grammar dispatch; every recursive call decreases the fuel, which the
top-level entry point sizes generously for the input). -/
def parseVal : Nat → List Char → Option (PyVal × List Char)
  | 0, _ => none
  | n + 1, l =>
    match skipWsL l with
    | [] => none
    | '\x7b' :: r =>
      (match skipWsL r with
       | '\x7d' :: r2 => some (.obj [], r2)
       | _ =>
         match parseMembers n (skipWsL r) with
         | some (kvs, r2) => some (.obj kvs, r2)
         | none => none)
    | '[' :: r =>
      (match skipWsL r with
       | ']' :: r2 => some (.arr [], r2)
       | _ =>
         match parseElems n (skipWsL r) with
         | some (vs, r2) => some (.arr vs, r2)
         | none => none)
    | '"' :: r =>
      (match parseStrBody n r with
       | some (cs, r2) => some (.str (String.mk cs), r2)
       | none => none)
    | 't' :: 'r' :: 'u' :: 'e' :: r => some (.bool true, r)
    | 'f' :: 'a' :: 'l' :: 's' :: 'e' :: r => some (.bool false, r)
    | 'n' :: 'u' :: 'l' :: 'l' :: r => some (.null, r)
    | c :: r => parseNum (c :: r)

/-- Object members `"k": v (, ...)* }`, positioned at the first key. -/
def parseMembers : Nat → List Char → Option (List (String × PyVal) × List Char)
  | 0, _ => none
  | n + 1, l =>
    match l with
    | '"' :: r =>
      (match parseStrBody n r with
       | some (kcs, r1) =>
         (match skipWsL r1 with
          | ':' :: r2 =>
            (match parseVal n r2 with
             | some (v, r3) =>
               (match skipWsL r3 with
                | ',' :: r4 =>
                  (match parseMembers n (skipWsL r4) with
                   | some (kvs, r5) => some ((String.mk kcs, v) :: kvs, r5)
                   | none => none)
                | '\x7d' :: r4 => some ([(String.mk kcs, v)], r4)
                | _ => none)
             | none => none)
          | _ => none)
       | none => none)
    | _ => none

/-- Array elements `v (, ...)* ]`, positioned at the first element. -/
def parseElems : Nat → List Char → Option (List PyVal × List Char)
  | 0, _ => none
  | n + 1, l =>
    match parseVal n l with
    | some (v, r1) =>
      (match skipWsL r1 with
       | ',' :: r2 =>
         (match parseElems n (skipWsL r2) with
          | some (vs, r3) => some (v :: vs, r3)
          | none => none)
       | ']' :: r2 => some ([v], r2)
       | _ => none)
    | none => none

/-- JSON string body after the opening quote; unescaped control
characters are rejected, as in strict JSON. -/
def parseStrBody : Nat → List Char → Option (List Char × List Char)
  | 0, _ => none
  | n + 1, l =>
    match l with
    | [] => none
    | '"' :: r => some ([], r)
    | '\\' :: e :: r =>
      (match escChar? e r with
       | some (c, r2) =>
         (match parseStrBody n r2 with
          | some (cs, r3) => some (c :: cs, r3)
          | none => none)
       | none => none)
    | c :: r =>
      if c.toNat < 32 then none
      else
        match parseStrBody n r with
        | some (cs, r2) => some (c :: cs, r2)
        | none => none

end

/-- Python `json.loads`: parse one JSON value and require only trailing
whitespace after it (`none` models a raised `json.JSONDecodeError`). -/
def json_loads (s : String) : Option PyVal :=
  match parseVal (3 * s.length + 12) s.data with
  | some (v, rest) => if skipWsL rest = [] then some v else none
  | none => none

/-- Validation outcome `{passed, reasoning}` returned by the validator. -/
structure VResult : Type where
  passed : Bool
  reasoning : String
deriving DecidableEq

/-- Abstraction of Python's `re` module as the Step Executor uses it:
`valid p` models whether `re.compile(p)` succeeds (its failure raises
`re.error`), and `searchCI p s` models whether
`re.search(p, s, re.IGNORECASE)` finds a match. -/
structure RegexEngine : Type where
  valid : String → Bool
  searchCI : String → String → Bool

/-- Regex metacharacters of Python `re`. -/
def reMetaChars : List Char :=
  ['.', '^', '$', '*', '+', '?', '\x7b', '\x7d', '[', ']', '\\', '|', '(', ')']

/-- Model of Python `re` restricted to literal patterns: a pattern
without metacharacters always compiles, and its `re.IGNORECASE` search
succeeds exactly when the pattern occurs case-insensitively as a
substring.  Patterns containing metacharacters are outside this concrete
model (it routes them to the invalid-pattern path); the structural
theorems quantify over an arbitrary `RegexEngine` instead. -/
def pyReLit : RegexEngine where
  valid := fun p => p.data.all (fun c => !reMetaChars.contains c)
  searchCI := fun p s => strContainsCI s p

/-- Models `unbound_client.SUPPORTED_MODELS`. -/
def SUPPORTED_MODELS : List String := ["kimi-k2p5", "kimi-k2-instruct-0905"]

/-- Models `unbound_client.DEFAULT_MODEL`. -/
def DEFAULT_MODEL : String := "kimi-k2p5"

/-- Models `unbound_client.validate_model`: a missing, empty, or
non-allowlisted model identifier falls back to the default model. -/
def validate_model : Option String → String
  | none => DEFAULT_MODEL
  | some m =>
    if m = "" then DEFAULT_MODEL
    else if SUPPORTED_MODELS.contains m then m
    else DEFAULT_MODEL

/-- The literal context placeholder token `{{previous}}`. -/
def placeholderTok : String := "\x7b\x7bprevious\x7d\x7d"

/-- Models the strategy dispatch inside `WorkflowRunner._inject_context`
(the body between the falsiness guard and the final `replace`): computes
the `context` string from the previous output for a given strategy tag. -/
def computeContext (strategy : String) (previous_output : String) : String :=
  if strategy = "summary" ∧ previous_output.length > 200 then
    pyTake 100 previous_output ++ "..."
  else if strategy = "extract" then
    (if strContainsChar previous_output '\x7b' ∧ strContainsChar previous_output '\x7d' then
      let start := (firstIdxChar previous_output '\x7b').getD 0
      let stop := (lastIdxChar previous_output '\x7d').getD 0 + 1
      pySlice previous_output start stop
    else if strContainsChar previous_output '•' ∨ strContainsChar previous_output '-' then
      joinLines ((splitLines previous_output).filter
        (fun line => strContainsStr line "•" || startsWithDash (pyStrip line)))
    else previous_output)
  else if strategy = "auto" then
    (if previous_output.length > 300 then
      pyTake 150 previous_output ++ "..."
    else if strContainsChar previous_output '\x7b' ∨ strContainsChar previous_output '[' ∨
        strContainsChar previous_output '•' ∨ strContainsChar previous_output '-' then
      previous_output
    else previous_output)
  else previous_output

/-- Models `WorkflowRunner._inject_context`: if the previous output is
empty or the strategy is unset (`None`) or empty, the template is
returned unchanged; otherwise every occurrence of the placeholder token
is replaced by the computed context. -/
def inject_context (prompt : String) (previous_output : String)
    (strategy : Option String) : String :=
  match strategy with
  | none => prompt
  | some s =>
    if previous_output = "" ∨ s = "" then prompt
    else strReplace prompt placeholderTok (computeContext s previous_output)

/-- Models `WorkflowRunner._validate_simple` on a string rule (the only
way the source reaches it with a truthy rule): try the rule as a regex,
case-insensitively; only a pattern that fails to compile falls back to a
case-insensitive substring test. -/
def validate_simple (E : RegexEngine) (response rule : String) : VResult :=
  if rule = "" then ⟨true, "No rule specified"⟩
  else if E.valid rule then
    (if E.searchCI rule response then
      ⟨true, "Regex pattern \x27" ++ rule ++ "\x27 matched"⟩
    else ⟨false, "Pattern \x27" ++ rule ++ "\x27 not found in response"⟩)
  else
    (if strContainsCI response rule then
      ⟨true, "Substring \x27" ++ rule ++ "\x27 found"⟩
    else ⟨false, "Pattern \x27" ++ rule ++ "\x27 not found in response"⟩)

/-- Python `schema.get("minLength", 0)` combined with the left half of
the chained comparison: the bound must be an `int` (Python `bool` counts
as `int`) or a `TypeError` is raised when compared. -/
def minBound? (v : Option PyVal) : Except String Int :=
  match v with
  | none => .ok 0
  | some (.int m) => .ok m
  | some (.bool b) => .ok (if b then 1 else 0)
  | some _ => .error "TypeError"

/-- Python `schema.get("maxLength", float('inf'))` combined with the
right half of the chained comparison (`none` = unbounded). -/
def maxBound? (v : Option PyVal) : Except String (Option Int) :=
  match v with
  | none => .ok none
  | some (.int m) => .ok (some m)
  | some (.bool b) => .ok (some (if b then 1 else 0))
  | some _ => .error "TypeError"

/-- Walks `schema["properties"].items()` with a given sub-schema
validator `f`: a declared property present in the data must validate
against its sub-schema; absent properties are skipped. -/
def walkProps (f : PyVal → PyVal → Except String Bool)
    (dkvs : List (String × PyVal)) :
    List (String × PyVal) → Except String Bool
  | [] => .ok true
  | (p, ps) :: rest =>
    match pyGet dkvs p with
    | none => walkProps f dkvs rest
    | some dv =>
      match f dv ps with
      | .error e => .error e
      | .ok false => .ok false
      | .ok true => walkProps f dkvs rest

/-- One level of `WorkflowRunner._validate_json_schema`, with `ih`
validating one nesting level deeper.  `.error` models a raised Python
exception: `AttributeError` when `.get`/`.items` is called on a
non-dict, `TypeError` when a length bound is not a number. -/
def schemaWalkStep (ih : PyVal → PyVal → Except String Bool)
    (data schema : PyVal) : Except String Bool :=
  match schema with
  | .obj skvs =>
    let st := pyGet skvs "type"
    if isStrEqO st "object" then
      (match data with
       | .obj dkvs =>
         (match pyGetD skvs "properties" (.obj []) with
          | .obj pkvs => walkProps ih dkvs pkvs
          | _ => .error "AttributeError")
       | _ => .ok false)
    else if isStrEqO st "string" then
      (match data with
       | .str s =>
         (match minBound? (pyGet skvs "minLength") with
          | .error e => .error e
          | .ok mn =>
            if mn ≤ (s.length : Int) then
              (match maxBound? (pyGet skvs "maxLength") with
               | .error e => .error e
               | .ok none => .ok true
               | .ok (some mx) => .ok (decide ((s.length : Int) ≤ mx)))
            else .ok false)
       | _ => .ok false)
    else if isStrEqO st "number" then
      (match data with
       | .int _ => .ok true
       | .bool _ => .ok true
       | _ => .ok false)
    else if isStrEqO st "array" then
      (match data with
       | .arr _ => .ok true
       | _ => .ok false)
    else .ok false
  | _ => .error "AttributeError"

/-- Models `WorkflowRunner._validate_json_schema` with `n` nesting
levels of recursion available; exhaustion models Python's
`RecursionError`. -/
def validate_json_schemaF (n : Nat) : PyVal → PyVal → Except String Bool :=
  @Nat.rec (fun _ => PyVal → PyVal → Except String Bool)
    (fun _ _ => .error "RecursionError") (fun _ ih => schemaWalkStep ih) n

/-- Recursion depth available to the schema walk: CPython's default
recursion limit.  The walk consumes one unit per nesting level only, so
on every schema a claim touches the fuel is inexhaustible, exactly as
in the source. -/
def PY_RECURSION_LIMIT : Nat := 1000

/-- Top-level entry to schema validation. -/
def validate_json_schema (data schema : PyVal) : Except String Bool :=
  validate_json_schemaF PY_RECURSION_LIMIT data schema

/-- Carve the candidate JSON span out of a response, as
`WorkflowRunner._validate_json_structure` does: from the first brace to
the last closing brace inclusive; `none` when Python's
`json_start >= 0 and json_end > json_start` test fails. -/
def extractJsonSpan (response : String) : Option String :=
  match firstIdxChar response '\x7b', lastIdxChar response '\x7d' with
  | some i, some j => if i ≤ j then some (pySlice response i (j + 1)) else none
  | _, _ => none

/-- Models `WorkflowRunner._validate_json_structure`: extract the brace
span, parse it, and check it against the schema.  `.error` propagates a
schema-walk exception (only `json.JSONDecodeError` is caught in the
source). -/
def validate_json_structure (response : String) (schema : PyVal) :
    Except String VResult :=
  match extractJsonSpan response with
  | some span =>
    (match json_loads span with
     | none => .ok ⟨false, "Invalid JSON format in response"⟩
     | some data =>
       match validate_json_schema data schema with
       | .error e => .error e
       | .ok true => .ok ⟨true, "JSON structure matches schema"⟩
       | .ok false => .ok ⟨false, "JSON structure does not match schema"⟩)
  | none => .ok ⟨false, "No valid JSON found in response"⟩

/-- Models `WorkflowRunner._validate_response_intelligent`.  `judgeRes`
is the oracle outcome of `judge_response` for this call (the judge path
catches every exception, so it never raises).  `.error` models an
exception escaping the method: `AttributeError` when the parsed rule is
not a dict, `TypeError` when a truthy `rule` field is not a string, or a
schema-walk exception. -/
def validate_response_intelligent (E : RegexEngine) (judgeRes : VResult)
    (response : String) (completion_rule : Option String) :
    Except String VResult :=
  match completion_rule with
  | none => .ok ⟨true, "No validation rule specified"⟩
  | some spec =>
    if spec = "" then .ok ⟨true, "No validation rule specified"⟩
    else
      match json_loads spec with
      | none => .ok (validate_simple E response spec)
      | some (.obj kvs) =>
        let tv := pyGetD kvs "type" (.str "simple")
        if isStrEqV tv "simple" then
          (let rv := pyGetD kvs "rule" (.str "")
           if pyFalsy rv then .ok ⟨true, "No rule specified"⟩
           else
             match rv with
             | .str r => .ok (validate_simple E response r)
             | _ => .error "TypeError")
        else if isStrEqV tv "json" then
          validate_json_structure response (pyGetD kvs "schema" (.obj []))
        else if isStrEqV tv "judge" then
          (let jp := pyGetD kvs "prompt" (.str "")
           if pyFalsy jp then .ok ⟨false, "No judge prompt specified"⟩
           else .ok ⟨judgeRes.passed, "Judge: " ++ judgeRes.reasoning⟩)
        else .ok ⟨false, "Invalid completion rule format"⟩
      | some _ => .error "AttributeError"

/-- Length-bound field acceptable to Python's chained comparison:
absent, an `int`, or a `bool`. -/
def numFieldOkay (v : Option PyVal) : Bool :=
  match v with
  | none => true
  | some (.int _) => true
  | some (.bool _) => true
  | some _ => false

/-- One level of schema well-typedness: sufficient conditions for
`schemaWalkStep` not to raise on any data, with `ih` checking one
nesting level deeper.  The schema is a dict; an `object` schema has
dict (or absent) `properties` whose sub-schemas are again well-typed; a
`string` schema has numeric (or absent) length bounds. -/
def schemaOkayStep (ih : PyVal → Bool) (schema : PyVal) : Bool :=
  match schema with
  | .obj skvs =>
    let st := pyGet skvs "type"
    if isStrEqO st "object" then
      (match pyGetD skvs "properties" (.obj []) with
       | .obj pkvs => pkvs.all (fun pr => ih pr.2)
       | _ => false)
    else if isStrEqO st "string" then
      numFieldOkay (pyGet skvs "minLength") && numFieldOkay (pyGet skvs "maxLength")
    else true
  | _ => false

/-- Well-typedness of a schema down to `n` nesting levels, mirroring
the fuel discipline of `validate_json_schemaF`. -/
def schemaOkayF (n : Nat) : PyVal → Bool :=
  @Nat.rec (fun _ => PyVal → Bool) (fun _ => false)
    (fun _ ih => schemaOkayStep ih) n

/-- Well-typedness of a schema at the fuel the wrapper uses. -/
def schemaOkay (schema : PyVal) : Bool := schemaOkayF PY_RECURSION_LIMIT schema

/-- Completion-rule specs on which the validator provably cannot raise:
either not JSON (legacy fallback), or a JSON object whose consulted
fields are well-typed.  Ill-typed specs (for example valid JSON that is
not an object) make the Python validator raise. -/
def wellFormedRule (spec : String) : Bool :=
  match json_loads spec with
  | none => true
  | some (.obj kvs) =>
    let tv := pyGetD kvs "type" (.str "simple")
    if isStrEqV tv "simple" then
      (let rv := pyGetD kvs "rule" (.str "")
       pyFalsy rv ||
         (match rv with
          | .str _ => true
          | _ => false))
    else if isStrEqV tv "json" then schemaOkay (pyGetD kvs "schema" (.obj []))
    else true
  | some _ => false

/-- Step row as the runner reads it from the step dict: `model` and
`completion_rule` are the results of `step.get(...)` (`none` = absent or
`null`); `context_strategy` keeps the outer `Option` for key presence
(`none` = key absent, so `step.get("context_strategy", "auto")` yields
`"auto"`) and the inner one for a stored `null`. -/
structure Step : Type where
  step_order : Int
  prompt : String
  model : Option String
  completion_rule : Option String
  context_strategy : Option (Option String)
deriving DecidableEq

/-- Python `step.get("context_strategy", "auto")`. -/
def strategyOf (st : Step) : Option String :=
  match st.context_strategy with
  | none => some "auto"
  | some v => v

/-- Attempt Log entry, with the fields `_execute_step` writes.
`model_used` is an `Option` because the exception path logs the step's
raw `model` field, which may be `None`. -/
structure LogEntry : Type where
  step : Int
  prompt : String
  response : String
  passed : Bool
  retries : Nat
  timestamp : Nat
  model_used : Option String
  validation_reasoning : String
deriving DecidableEq

/-- Environment of external effects, indexed by a global attempt
counter so that every attempt may observe a fresh gateway response,
judge outcome and clock reading.  `generate_text` never raises (its
source catches every transport failure and returns an error-describing
string), so the gateway oracle is total. -/
structure Env : Type where
  response : Nat → String
  judge : Nat → VResult
  clock : Nat → Nat
  re : RegexEngine

/-- One iteration of the retry loop body of
`WorkflowRunner._execute_step`, for global attempt counter `k` and retry
index `retry`: resolve the model, build the prompt, call the gateway,
validate, and produce the log entry.  The second component is the
`passed` flag driving the control flow; an exception from the validator
(`.error`) produces the source's fallback entry built from the raw step
fields. -/
def attemptEntry (env : Env) (st : Step) (previous_output : String)
    (k retry : Nat) : LogEntry × Bool :=
  let model := validate_model st.model
  let prompt := inject_context st.prompt previous_output (strategyOf st)
  let response := env.response k
  match validate_response_intelligent env.re (env.judge k) response st.completion_rule with
  | .ok v =>
    ({ step := st.step_order, prompt := prompt, response := response,
       passed := v.passed, retries := retry, timestamp := env.clock k,
       model_used := some model, validation_reasoning := v.reasoning },
     v.passed)
  | .error e =>
    ({ step := st.step_order, prompt := st.prompt,
       response := "Error: " ++ e, passed := false, retries := retry,
       timestamp := env.clock k, model_used := st.model,
       validation_reasoning := "Execution error: " ++ e },
     false)

/-- The retry loop of `_execute_step`: `remaining` attempts left
(`remaining = max_retries + 1 - retry`), returning the appended log
entries, the step verdict, and the advanced attempt counter.  A passing
attempt returns success immediately; `retry == max_retries`
(i.e. `remaining = 1`) failing returns failure. -/
def runAttempts (env : Env) (st : Step) (previous_output : String) :
    Nat → Nat → Nat → List LogEntry × Bool × Nat
  | k, _, 0 => ([], false, k)
  | k, retry, n + 1 =>
    let a := attemptEntry env st previous_output k retry
    if a.2 then ([a.1], true, k + 1)
    else if n = 0 then ([a.1], false, k + 1)
    else
      let r := runAttempts env st previous_output (k + 1) (retry + 1) n
      (a.1 :: r.1, r.2.1, r.2.2)

/-- Models `WorkflowRunner._execute_step` (retry policy: `max_retries =
2`, three attempts, 0-indexed retry counter). -/
def execute_step (env : Env) (st : Step) (previous_output : String)
    (k : Nat) : List LogEntry × Bool × Nat :=
  runAttempts env st previous_output k 0 3

/-- The sequential fold of `WorkflowRunner.execute` over the sorted
steps, carrying the accumulated `self.logs` and the previous output
(taken from the last log entry after a successful step, as the source
does). -/
def execSteps (env : Env) : List Step → String → List LogEntry → Nat →
    List LogEntry × Bool × Nat
  | [], _, acc, k => (acc, true, k)
  | st :: rest, prev, acc, k =>
    let r := execute_step env st prev k
    let acc' := acc ++ r.1
    if r.2.1 then
      let prev' := match acc'.getLast? with
        | some e => e.response
        | none => prev
      execSteps env rest prev' acc' r.2.2
    else (acc', false, r.2.2)

/-- Python `steps.sort(key=lambda x: x["step_order"])`: a stable sort by
the order field (insertion sort is stable, like Python's sort, so the
two agree as functions). -/
def sortSteps (steps : List Step) : List Step :=
  List.insertionSort (fun a b => a.step_order ≤ b.step_order) steps

/-- Models `WorkflowRunner.execute`.  `fetch` is the outcome of
`get_workflow_with_steps` (`.error` = the lookup raised); the result is
the run's terminal status, the final log list, and the boolean the
coroutine returns.  Intermediate `"running"` writes always precede the
terminal write and are not observable in the final state, so only the
terminal status is modelled. -/
def execute (env : Env) (fetch : Except String (List Step)) :
    String × List LogEntry × Bool :=
  match fetch with
  | .error _ => ("failed", [], false)
  | .ok steps =>
    if steps.isEmpty then ("failed", [], false)
    else
      let r := execSteps env (sortSteps steps) "" [] 0
      if r.2.1 then ("completed", r.1, true) else ("failed", r.1, false)

/-! ### General lemmas about the embedded operations -/

/-- Replacement is the identity when the pattern does not occur (at any
fuel, since exhausted fuel also returns the input unchanged). -/
theorem replaceFromF_id_of_not_contains (pat repl : List Char) :
    ∀ n l, containsL pat l = false → replaceFromF pat repl n l = l := by
  intro n
  induction n with
  | zero => intro l _; rfl
  | succ n ih =>
    intro l hc
    cases l with
    | nil => rfl
    | cons c rest =>
      have hc' : (pat.isPrefixOf (c :: rest) || containsL pat rest) = false := hc
      have h1 : pat.isPrefixOf (c :: rest) = false := by
        cases hp : pat.isPrefixOf (c :: rest) <;> simp [hp] at hc' ⊢
      have h2 : containsL pat rest = false := by
        cases hp : containsL pat rest <;> simp [hp] at hc' ⊢
      simp only [replaceFromF, h1, ne_eq, and_false, if_false, Bool.false_eq_true,
        and_false, ite_false]
      exact congrArg (c :: ·) (ih rest h2)

/-- String-level replacement is the identity when the pattern does not
occur. -/
theorem strReplace_id_of_not_contains (s pat repl : String)
    (h : strContainsStr s pat = false) : strReplace s pat repl = s := by
  unfold strReplace
  rw [replaceFromF_id_of_not_contains pat.data repl.data s.data.length s.data h]

/-- C9 (claims file): the Context Injector returns the template
unchanged both when the template contains no occurrence of the
placeholder token (for every previous output and strategy), and when
the previous output is empty or the strategy is unset. -/
theorem c9_inject_context_noop (t x : String) (s : Option String) :
    (strContainsStr t placeholderTok = false → inject_context t x s = t) ∧
    ((x = "" ∨ s = none) → inject_context t x s = t) := by
  constructor
  · intro h
    unfold inject_context
    cases s with
    | none => rfl
    | some st =>
      by_cases hx : x = "" ∨ st = ""
      · simp [hx]
      · simp only [if_neg hx]
        exact strReplace_id_of_not_contains t placeholderTok _ h
  · intro h
    unfold inject_context
    cases s with
    | none => rfl
    | some st =>
      rcases h with h | h
      · simp [h]
      · cases h

/-- Concrete instances of `c9_inject_context_noop`: a template without
the placeholder is untouched even with an active strategy, and an empty
previous output leaves a present placeholder literally in place. -/
theorem c9_inject_context_noop_witness :
    inject_context "hello" "x" (some "auto") = "hello" ∧
    inject_context "a \x7b\x7bprevious\x7d\x7d b" "" (some "auto") =
      "a \x7b\x7bprevious\x7d\x7d b" :=
  ⟨(c9_inject_context_noop "hello" "x" (some "auto")).1 (by decide),
   (c9_inject_context_noop "a \x7b\x7bprevious\x7d\x7d b" "" (some "auto")).2 (Or.inl rfl)⟩

/-- C3 (claims file): executing a workflow with an empty step list
terminates with status `failed`, an empty attempt log, and a `False`
return, for every environment. -/
theorem c3_empty_workflow_fails (env : Env) :
    execute env (.ok []) = ("failed", [], false) := rfl

/-- C4 (claims file): simple-mode validation performs a case-insensitive
regex search of the rule against the response, and only a syntactically
invalid pattern falls back to a case-insensitive substring search; in
particular `"hello world"` against rule `{"type":"simple","rule":"Hello"}`
passes through the full dispatcher and `"goodbye"` against
`{"type":"simple","rule":"XYZZY"}` fails, for every judge outcome. -/
theorem c4_simple_mode (E : RegexEngine) (response rule : String)
    (hr : rule ≠ "") :
    (E.valid rule = true →
      validate_simple E response rule =
        if E.searchCI rule response then
          ⟨true, "Regex pattern \x27" ++ rule ++ "\x27 matched"⟩
        else ⟨false, "Pattern \x27" ++ rule ++ "\x27 not found in response"⟩) ∧
    (E.valid rule = false →
      validate_simple E response rule =
        if strContainsCI response rule then
          ⟨true, "Substring \x27" ++ rule ++ "\x27 found"⟩
        else ⟨false, "Pattern \x27" ++ rule ++ "\x27 not found in response"⟩) ∧
    (∀ j, validate_response_intelligent pyReLit j "hello world"
        (some "\x7b\"type\":\"simple\",\"rule\":\"Hello\"\x7d") =
      .ok ⟨true, "Regex pattern \x27Hello\x27 matched"⟩) ∧
    (∀ j, validate_response_intelligent pyReLit j "goodbye"
        (some "\x7b\"type\":\"simple\",\"rule\":\"XYZZY\"\x7d") =
      .ok ⟨false, "Pattern \x27XYZZY\x27 not found in response"⟩) := by
  refine ⟨?_, ?_, fun _ => rfl, fun _ => rfl⟩
  · intro hv
    unfold validate_simple
    rw [if_neg hr, if_pos hv]
  · intro hv
    unfold validate_simple
    rw [if_neg hr, if_neg (by rw [hv]; exact Bool.false_ne_true)]

/-- Concrete instances of `c4_simple_mode`, with its hypotheses
discharged at the literal inputs of the claim. -/
theorem c4_simple_mode_witness :
    validate_simple pyReLit "hello world" "Hello" =
      ⟨true, "Regex pattern \x27Hello\x27 matched"⟩ ∧
    validate_simple pyReLit "goodbye" "XYZZY" =
      ⟨false, "Pattern \x27XYZZY\x27 not found in response"⟩ :=
  ⟨((c4_simple_mode pyReLit "hello world" "Hello" (by decide)).1 (by rfl)).trans (by rfl),
   ((c4_simple_mode pyReLit "goodbye" "XYZZY" (by decide)).1 (by rfl)).trans (by rfl)⟩

/-- C8 counterexample: for previous output `"well-known"` — which
contains no brace, no bullet marker, and no line beginning with `-`
after trimming — the claim predicts the full text as context, but the
code enters the list branch (because `-` occurs mid-word), keeps no
lines, and produces the empty context. -/
theorem c8_extract_counterexample :
    (∀ line ∈ splitLines "well-known",
      strContainsStr line "•" = false ∧ startsWithDash (pyStrip line) = false) ∧
    strContainsChar "well-known" '\x7b' = false ∧
    strContainsChar "well-known" '•' = false ∧
    computeContext "extract" "well-known" = "" ∧
    computeContext "extract" "well-known" ≠ "well-known" := by
  refine ⟨?_, rfl, rfl, rfl, ?_⟩ <;> decide

/-- C8 as the code has it: for a non-empty previous output, `extract`
takes the first-brace-to-last-brace slice when both braces occur;
otherwise, when `•` or `-` occurs anywhere in the text, it keeps exactly
the lines containing `•` or beginning with `-` after trimming,
newline-joined (possibly the empty string when no line qualifies); only
when neither brace pair nor `•` nor `-` occurs at all does it fall back
to the full text. -/
theorem c8_extract_context (x : String) (hx : x ≠ "") :
    (strContainsChar x '\x7b' = true → strContainsChar x '\x7d' = true →
      computeContext "extract" x =
        pySlice x ((firstIdxChar x '\x7b').getD 0)
          ((lastIdxChar x '\x7d').getD 0 + 1)) ∧
    (¬(strContainsChar x '\x7b' = true ∧ strContainsChar x '\x7d' = true) →
      (strContainsChar x '•' = true ∨ strContainsChar x '-' = true) →
      computeContext "extract" x =
        joinLines ((splitLines x).filter
          (fun line => strContainsStr line "•" || startsWithDash (pyStrip line)))) ∧
    (¬(strContainsChar x '\x7b' = true ∧ strContainsChar x '\x7d' = true) →
      strContainsChar x '•' = false → strContainsChar x '-' = false →
      computeContext "extract" x = x) := by
  have hns : ¬(("extract" : String) = "summary" ∧ x.length > 200) := by
    intro h; exact absurd h.1 (by decide)
  refine ⟨?_, ?_, ?_⟩
  · intro h1 h2
    unfold computeContext
    rw [if_neg hns, if_pos rfl, if_pos ⟨h1, h2⟩]
  · intro h1 h2
    unfold computeContext
    rw [if_neg hns, if_pos rfl, if_neg h1, if_pos h2]
  · intro h1 h2 h3
    unfold computeContext
    rw [if_neg hns, if_pos rfl, if_neg h1, if_neg (by rw [h2, h3]; rintro (h | h) <;> exact absurd h (by decide))]

/-- Concrete instances of `c8_extract_context`: the brace slice, the
kept-lines join, and the full-text fallback, each at a literal input. -/
theorem c8_extract_context_witness :
    computeContext "extract" "pre \x7b\"a\":1\x7d post" = "\x7b\"a\":1\x7d" ∧
    computeContext "extract" "- item one\nplain\n- item two" =
      "- item one\n- item two" ∧
    computeContext "extract" "plain text" = "plain text" := by
  refine ⟨?_, ?_, ?_⟩
  · exact ((c8_extract_context "pre \x7b\"a\":1\x7d post" (by decide)).1
      (by decide) (by decide)).trans (by rfl)
  · exact ((c8_extract_context "- item one\nplain\n- item two" (by decide)).2.1
      (by decide) (by decide)).trans (by rfl)
  · exact (c8_extract_context "plain text" (by decide)).2.2
      (by decide) (by decide) (by decide)

/-- Schema walk on a schema dict whose `type` is absent or not one of
the four recognised tags: every branch of the dispatch falls through to
`return False`, for any data value. -/
theorem validate_json_schema_bad_type (data : PyVal) (skvs : List (String × PyVal))
    (h3 : isStrEqO (pyGet skvs "type") "object" = false)
    (h4 : isStrEqO (pyGet skvs "type") "string" = false)
    (h5 : isStrEqO (pyGet skvs "type") "number" = false)
    (h6 : isStrEqO (pyGet skvs "type") "array" = false) :
    validate_json_schema data (.obj skvs) = .ok false := by
  show schemaWalkStep (validate_json_schemaF 999) data (.obj skvs) = .ok false
  simp only [schemaWalkStep, h3, h4, h5, h6, Bool.false_eq_true, if_false]

/-- C10 (claims file): when the response yields a parseable brace span,
JSON-mode validation against a schema object whose `type` field is
absent or not one of `object`/`string`/`number`/`array` fails with
reasoning `"JSON structure does not match schema"`; and the same holds
through the full dispatcher for any rule spec of type `json` carrying
such a schema (for example `{"type": "json"}`, whose missing `schema`
defaults to the empty object). -/
theorem c10_json_mode_invalid_schema_type (E : RegexEngine) (jr : VResult)
    (response span : String) (data : PyVal) (skvs : List (String × PyVal))
    (hspan : extractJsonSpan response = some span)
    (hparse : json_loads span = some data)
    (h3 : isStrEqO (pyGet skvs "type") "object" = false)
    (h4 : isStrEqO (pyGet skvs "type") "string" = false)
    (h5 : isStrEqO (pyGet skvs "type") "number" = false)
    (h6 : isStrEqO (pyGet skvs "type") "array" = false) :
    validate_json_structure response (.obj skvs) =
      .ok ⟨false, "JSON structure does not match schema"⟩ ∧
    (∀ spec kvs, spec ≠ "" → json_loads spec = some (.obj kvs) →
      isStrEqV (pyGetD kvs "type" (.str "simple")) "simple" = false →
      isStrEqV (pyGetD kvs "type" (.str "simple")) "json" = true →
      pyGetD kvs "schema" (.obj []) = .obj skvs →
      validate_response_intelligent E jr response (some spec) =
        .ok ⟨false, "JSON structure does not match schema"⟩) := by
  have hmain : validate_json_structure response (.obj skvs) =
      .ok ⟨false, "JSON structure does not match schema"⟩ := by
    simp only [validate_json_structure, hspan, hparse,
      validate_json_schema_bad_type data skvs h3 h4 h5 h6]
  refine ⟨hmain, ?_⟩
  intro spec kvs hs hl hsimple hjson hschema
  simp only [validate_response_intelligent, if_neg hs, hl, hsimple, hjson,
    Bool.false_eq_true, if_false, if_true, hschema]
  exact hmain

/-- Concrete instance of `c10_json_mode_invalid_schema_type`: the rule
`{"type": "json"}` (schema defaulting to `{}`) fails the response
`{"a": 1}` with the schema-mismatch reasoning. -/
theorem c10_json_mode_invalid_schema_type_witness :
    validate_response_intelligent pyReLit ⟨false, ""⟩ "\x7b\"a\": 1\x7d"
      (some "\x7b\"type\": \"json\"\x7d") =
      .ok ⟨false, "JSON structure does not match schema"⟩ :=
  (c10_json_mode_invalid_schema_type pyReLit ⟨false, ""⟩ "\x7b\"a\": 1\x7d"
    "\x7b\"a\": 1\x7d" (.obj [("a", .int 1)]) []
    rfl rfl rfl rfl rfl rfl).2
    "\x7b\"type\": \"json\"\x7d" [("type", .str "json")]
    (by decide) rfl rfl rfl rfl

/-- A character that does not occur in a list is found at no index. -/
theorem findIdx_none_of_not_contains (l : List Char) (c : Char)
    (h : l.contains c = false) : l.findIdx? (· = c) = none := by
  rw [List.findIdx?_eq_none_iff]
  intro x hx
  by_contra hne
  have hxc : x = c := by
    cases hd : decide (x = c) with
    | true => exact of_decide_eq_true hd
    | false => exact absurd hd hne
  subst hxc
  simp [List.elem_iff, hx] at h

/-- The property walk accepts outright when every declared property is
absent from the data, whatever the sub-schema validator is. -/
theorem walkProps_all_absent (f : PyVal → PyVal → Except String Bool)
    (dkvs : List (String × PyVal)) :
    ∀ pkvs : List (String × PyVal),
      (∀ pr ∈ pkvs, pyGet dkvs pr.1 = none) →
      walkProps f dkvs pkvs = .ok true := by
  intro pkvs
  induction pkvs with
  | nil => intro _; rfl
  | cons pr rest ih =>
    intro h
    obtain ⟨p, ps⟩ := pr
    have hp : pyGet dkvs p = none := h (p, ps) (List.mem_cons_self _ _)
    simp only [walkProps, hp]
    exact ih (fun q hq => h q (List.mem_cons_of_mem _ hq))

set_option maxRecDepth 8000 in
/-- C5 (claims file): JSON-mode validation carves the first-brace to
last-brace span and validates it leniently.  (a) For an `object`
schema, declared properties absent from the data never cause failure:
if every declared property is absent, validation succeeds outright.
(b) The claim's example passes through the full dispatcher: response
`'prefix {"title":"x","score":5} suffix'` against the object schema
with `title : string (minLength 1)` and `score : number`.  (c) A
response containing no opening brace fails with the no-JSON reasoning,
for every schema. -/
theorem c5_json_mode_lenient (E : RegexEngine) (jr : VResult) :
    (∀ (dkvs skvs pkvs : List (String × PyVal)),
      isStrEqO (pyGet skvs "type") "object" = true →
      pyGetD skvs "properties" (.obj []) = .obj pkvs →
      (∀ pr ∈ pkvs, pyGet dkvs pr.1 = none) →
      validate_json_schema (.obj dkvs) (.obj skvs) = .ok true) ∧
    validate_response_intelligent E jr
      "prefix \x7b\"title\":\"x\",\"score\":5\x7d suffix"
      (some "\x7b\"type\":\"json\",\"schema\":\x7b\"type\":\"object\",\"properties\":\x7b\"title\":\x7b\"type\":\"string\",\"minLength\":1\x7d,\"score\":\x7b\"type\":\"number\"\x7d\x7d\x7d\x7d") =
      .ok ⟨true, "JSON structure matches schema"⟩ ∧
    (∀ (r : String) (schema : PyVal), strContainsChar r '\x7b' = false →
      validate_json_structure r schema =
        .ok ⟨false, "No valid JSON found in response"⟩) := by
  refine ⟨?_, rfl, ?_⟩
  · intro dkvs skvs pkvs htype hprops habsent
    show schemaWalkStep (validate_json_schemaF 999) (.obj dkvs) (.obj skvs) = .ok true
    simp only [schemaWalkStep, htype, if_true, hprops]
    exact walkProps_all_absent _ dkvs pkvs habsent
  · intro r schema h
    have hfi : firstIdxChar r '\x7b' = none :=
      findIdx_none_of_not_contains r.data '\x7b' h
    simp only [validate_json_structure, extractJsonSpan, hfi]

/-- Concrete instances of `c5_json_mode_lenient`: an object schema whose
single declared property is absent from the data accepts, and a
brace-free response fails with the no-JSON reasoning. -/
theorem c5_json_mode_lenient_witness :
    validate_json_schema
      (.obj [("b", .int 1)])
      (.obj [("type", .str "object"),
             ("properties", .obj [("a", .obj [("type", .str "number")])])]) =
      .ok true ∧
    validate_json_structure "hello" (.obj []) =
      .ok ⟨false, "No valid JSON found in response"⟩ :=
  ⟨(c5_json_mode_lenient pyReLit ⟨false, ""⟩).1
      [("b", .int 1)]
      [("type", .str "object"),
       ("properties", .obj [("a", .obj [("type", .str "number")])])]
      [("a", .obj [("type", .str "number")])]
      rfl rfl
      (by
        intro pr hpr
        rw [List.mem_singleton] at hpr
        subst hpr
        rfl),
   (c5_json_mode_lenient pyReLit ⟨false, ""⟩).2.2 "hello" (.obj []) rfl⟩

/-- Unfolding of the fueled schema walk at zero fuel. -/
theorem validate_json_schemaF_zero :
    validate_json_schemaF 0 = fun _ _ => .error "RecursionError" := rfl

/-- Unfolding of the fueled schema walk at positive fuel. -/
theorem validate_json_schemaF_succ (n : Nat) :
    validate_json_schemaF (n + 1) = schemaWalkStep (validate_json_schemaF n) := rfl

/-- Unfolding of schema well-typedness at zero fuel. -/
theorem schemaOkayF_zero : schemaOkayF 0 = fun _ => false := rfl

/-- Unfolding of schema well-typedness at positive fuel. -/
theorem schemaOkayF_succ (n : Nat) :
    schemaOkayF (n + 1) = schemaOkayStep (schemaOkayF n) := rfl

/-- A well-typed length bound always yields a comparable lower bound. -/
theorem minBound_ok (v : Option PyVal) (h : numFieldOkay v = true) :
    ∃ m, minBound? v = .ok m := by
  cases v with
  | none => exact ⟨0, rfl⟩
  | some pv =>
    cases pv with
    | int m => exact ⟨m, rfl⟩
    | bool b => exact ⟨if b then 1 else 0, rfl⟩
    | null => exact absurd h (by decide)
    | str s => exact absurd h (by simp [numFieldOkay])
    | arr l => exact absurd h (by simp [numFieldOkay])
    | obj l => exact absurd h (by simp [numFieldOkay])

/-- A well-typed length bound always yields a comparable upper bound. -/
theorem maxBound_ok (v : Option PyVal) (h : numFieldOkay v = true) :
    ∃ mo, maxBound? v = .ok mo := by
  cases v with
  | none => exact ⟨none, rfl⟩
  | some pv =>
    cases pv with
    | int m => exact ⟨some m, rfl⟩
    | bool b => exact ⟨some (if b then 1 else 0), rfl⟩
    | null => exact absurd h (by decide)
    | str s => exact absurd h (by simp [numFieldOkay])
    | arr l => exact absurd h (by simp [numFieldOkay])
    | obj l => exact absurd h (by simp [numFieldOkay])

/-- The property walk cannot raise when the sub-schema validator cannot
raise on any present property. -/
theorem walkProps_no_error (v : PyVal → PyVal → Except String Bool)
    (dkvs : List (String × PyVal)) :
    ∀ pkvs : List (String × PyVal),
      (∀ pr ∈ pkvs, ∀ d, ∃ b, v d pr.2 = .ok b) →
      ∃ b, walkProps v dkvs pkvs = .ok b := by
  intro pkvs
  induction pkvs with
  | nil => exact fun _ => ⟨true, rfl⟩
  | cons pr rest ih =>
    intro h
    obtain ⟨p, ps⟩ := pr
    cases hg : pyGet dkvs p with
    | none =>
      obtain ⟨b, hb⟩ := ih (fun q hq => h q (List.mem_cons_of_mem _ hq))
      exact ⟨b, by simp only [walkProps, hg]; exact hb⟩
    | some dv =>
      obtain ⟨b, hb⟩ := h (p, ps) (List.mem_cons_self _ _) dv
      have hb' : v dv ps = .ok b := hb
      cases b with
      | false => exact ⟨false, by simp only [walkProps, hg, hb']⟩
      | true =>
        obtain ⟨b2, hb2⟩ := ih (fun q hq => h q (List.mem_cons_of_mem _ hq))
        exact ⟨b2, by simp only [walkProps, hg, hb']; exact hb2⟩

/-- One step of error-freedom: a schema passing `schemaOkayStep` cannot
make `schemaWalkStep` raise, given the same guarantee one level down. -/
theorem schemaWalkStep_no_error (v : PyVal → PyVal → Except String Bool)
    (ok : PyVal → Bool)
    (hvo : ∀ d s, ok s = true → ∃ b, v d s = .ok b) :
    ∀ (data schema : PyVal), schemaOkayStep ok schema = true →
      ∃ b, schemaWalkStep v data schema = .ok b := by
  intro data schema h
  cases schema with
  | obj skvs =>
    simp only [schemaOkayStep] at h
    simp only [schemaWalkStep]
    by_cases hobj : isStrEqO (pyGet skvs "type") "object" = true
    · rw [if_pos hobj] at h ⊢
      cases data with
      | obj dkvs =>
        cases hp : pyGetD skvs "properties" (.obj []) with
        | obj pkvs =>
          rw [hp] at h
          refine walkProps_no_error v dkvs pkvs ?_
          intro pr hpr d
          exact hvo d pr.2 (List.all_eq_true.mp h pr hpr)
        | null => rw [hp] at h; exact Bool.noConfusion h
        | bool b => rw [hp] at h; exact Bool.noConfusion h
        | int m => rw [hp] at h; exact Bool.noConfusion h
        | str s => rw [hp] at h; exact Bool.noConfusion h
        | arr l => rw [hp] at h; exact Bool.noConfusion h
      | null => exact ⟨false, rfl⟩
      | bool b => exact ⟨false, rfl⟩
      | int m => exact ⟨false, rfl⟩
      | str s => exact ⟨false, rfl⟩
      | arr l => exact ⟨false, rfl⟩
    · rw [if_neg hobj] at h ⊢
      by_cases hstr : isStrEqO (pyGet skvs "type") "string" = true
      · rw [if_pos hstr] at h ⊢
        cases data with
        | str s =>
          rw [Bool.and_eq_true] at h
          obtain ⟨hmin, hmax⟩ := h
          obtain ⟨mn, hmn⟩ := minBound_ok _ hmin
          obtain ⟨mo, hmo⟩ := maxBound_ok _ hmax
          by_cases hle : mn ≤ (s.length : Int)
          · cases mo with
            | none =>
              exact ⟨true, by
                simp only [schemaWalkStep, if_neg hobj, if_pos hstr, hmn, hmo, if_pos hle]⟩
            | some mx =>
              exact ⟨decide ((s.length : Int) ≤ mx), by
                simp only [schemaWalkStep, if_neg hobj, if_pos hstr, hmn, hmo, if_pos hle]⟩
          · exact ⟨false, by
              simp only [schemaWalkStep, if_neg hobj, if_pos hstr, hmn, if_neg hle]⟩
        | null => exact ⟨false, rfl⟩
        | bool b => exact ⟨false, rfl⟩
        | int m => exact ⟨false, rfl⟩
        | arr l => exact ⟨false, rfl⟩
        | obj l => exact ⟨false, rfl⟩
      · rw [if_neg hstr]
        by_cases hnum : isStrEqO (pyGet skvs "type") "number" = true
        · rw [if_pos hnum]
          cases data <;> exact ⟨_, rfl⟩
        · rw [if_neg hnum]
          by_cases harr : isStrEqO (pyGet skvs "type") "array" = true
          · rw [if_pos harr]
            cases data <;> exact ⟨_, rfl⟩
          · rw [if_neg harr]; exact ⟨false, rfl⟩
  | null => exact Bool.noConfusion h
  | bool b => exact Bool.noConfusion h
  | int m => exact Bool.noConfusion h
  | str s => exact Bool.noConfusion h
  | arr l => exact Bool.noConfusion h

/-- Error-freedom of the fueled schema walk on well-typed schemas, at
every fuel. -/
theorem schemaOkayF_no_error : ∀ n : Nat, ∀ data schema : PyVal,
    schemaOkayF n schema = true → ∃ b, validate_json_schemaF n data schema = .ok b := by
  intro n
  induction n with
  | zero =>
    intro data schema h
    rw [schemaOkayF_zero] at h
    exact Bool.noConfusion h
  | succ n ih =>
    intro data schema h
    rw [schemaOkayF_succ] at h
    rw [validate_json_schemaF_succ]
    exact schemaWalkStep_no_error (validate_json_schemaF n) (schemaOkayF n) ih data schema h

/-- JSON-mode structure validation cannot raise on a well-typed
schema. -/
theorem validate_json_structure_no_error (response : String) (schema : PyVal)
    (h : schemaOkay schema = true) :
    ∃ v, validate_json_structure response schema = .ok v := by
  cases hspan : extractJsonSpan response with
  | none =>
    exact ⟨⟨false, "No valid JSON found in response"⟩,
      by simp only [validate_json_structure, hspan]⟩
  | some span =>
    cases hl : json_loads span with
    | none =>
      exact ⟨⟨false, "Invalid JSON format in response"⟩,
        by simp only [validate_json_structure, hspan, hl]⟩
    | some data =>
      obtain ⟨b, hb⟩ := schemaOkayF_no_error PY_RECURSION_LIMIT data schema h
      have hb' : validate_json_schema data schema = .ok b := hb
      cases b with
      | true =>
        exact ⟨⟨true, "JSON structure matches schema"⟩,
          by simp only [validate_json_structure, hspan, hl, hb']⟩
      | false =>
        exact ⟨⟨false, "JSON structure does not match schema"⟩,
          by simp only [validate_json_structure, hspan, hl, hb']⟩

/-- C7 counterexample: the completion-rule spec `"5"` is valid JSON but
not an object, so `rule_data.get("type", ...)` raises `AttributeError`
(modelled as `.error`): the validator does raise for this rule-spec
error instead of returning a pass/fail result. -/
theorem c7_validator_raises_counterexample :
    validate_response_intelligent pyReLit ⟨false, ""⟩ "anything" (some "5") =
      .error "AttributeError" ∧
    ∀ v : VResult, validate_response_intelligent pyReLit ⟨false, ""⟩
      "anything" (some "5") ≠ .ok v := by
  refine ⟨rfl, ?_⟩
  intro v hv
  exact Except.noConfusion ((rfl :
    validate_response_intelligent pyReLit ⟨false, ""⟩ "anything" (some "5") =
      .error "AttributeError").symm.trans hv)

/-- C7 as the code has it: the validator returns a pass/fail result
without raising for a missing rule, for any spec that is not parseable
as JSON (run as a plain simple-mode pattern), for any well-typed rule
spec (`wellFormedRule`), and for a parsed rule whose type is unknown
(reasoning `"Invalid completion rule format"`); but a spec parsing to
non-object JSON, or to an object with an ill-typed consulted field,
raises (see the counterexample). -/
theorem c7_rule_spec_error_recovery (E : RegexEngine) (jr : VResult)
    (response : String) :
    validate_response_intelligent E jr response none =
      .ok ⟨true, "No validation rule specified"⟩ ∧
    (∀ spec, spec ≠ "" → json_loads spec = none →
      validate_response_intelligent E jr response (some spec) =
        .ok (validate_simple E response spec)) ∧
    (∀ spec, wellFormedRule spec = true →
      ∃ v, validate_response_intelligent E jr response (some spec) = .ok v) ∧
    (∀ spec kvs, spec ≠ "" → json_loads spec = some (.obj kvs) →
      isStrEqV (pyGetD kvs "type" (.str "simple")) "simple" = false →
      isStrEqV (pyGetD kvs "type" (.str "simple")) "json" = false →
      isStrEqV (pyGetD kvs "type" (.str "simple")) "judge" = false →
      validate_response_intelligent E jr response (some spec) =
        .ok ⟨false, "Invalid completion rule format"⟩) := by
  refine ⟨rfl, ?_, ?_, ?_⟩
  · intro spec hs hl
    simp only [validate_response_intelligent, if_neg hs, hl]
  · intro spec hwf
    by_cases hs : spec = ""
    · subst hs
      exact ⟨⟨true, "No validation rule specified"⟩, rfl⟩
    · cases hl : json_loads spec with
      | none =>
        exact ⟨validate_simple E response spec,
          by simp only [validate_response_intelligent, if_neg hs, hl]⟩
      | some rv =>
        simp only [wellFormedRule, hl] at hwf
        cases rv with
        | obj kvs =>
          dsimp only at hwf
          by_cases hsimple : isStrEqV (pyGetD kvs "type" (.str "simple")) "simple" = true
          · rw [if_pos hsimple] at hwf
            by_cases hf : pyFalsy (pyGetD kvs "rule" (.str "")) = true
            · exact ⟨⟨true, "No rule specified"⟩, by
                simp only [validate_response_intelligent, if_neg hs, hl, hsimple,
                  if_true, hf]⟩
            · rw [Bool.or_eq_true] at hwf
              cases hwf with
              | inl hff => exact absurd hff hf
              | inr hm =>
                cases hrv : pyGetD kvs "rule" (.str "") with
                | str r =>
                  exact ⟨validate_simple E response r, by
                    simp only [validate_response_intelligent, if_neg hs, hl, hsimple,
                      if_true, hrv]
                    rw [if_neg (by rw [← hrv]; exact hf)]⟩
                | null => rw [hrv] at hm; exact Bool.noConfusion hm
                | bool b => rw [hrv] at hm; exact Bool.noConfusion hm
                | int m => rw [hrv] at hm; exact Bool.noConfusion hm
                | arr l => rw [hrv] at hm; exact Bool.noConfusion hm
                | obj l => rw [hrv] at hm; exact Bool.noConfusion hm
          · rw [if_neg hsimple] at hwf
            by_cases hjson : isStrEqV (pyGetD kvs "type" (.str "simple")) "json" = true
            · rw [if_pos hjson] at hwf
              obtain ⟨v, hv⟩ :=
                validate_json_structure_no_error response (pyGetD kvs "schema" (.obj [])) hwf
              exact ⟨v, by
                simp only [validate_response_intelligent, if_neg hs, hl, hsimple, hjson,
                  Bool.false_eq_true, if_false, if_true]
                exact hv⟩
            · by_cases hjudge : isStrEqV (pyGetD kvs "type" (.str "simple")) "judge" = true
              · by_cases hjp : pyFalsy (pyGetD kvs "prompt" (.str "")) = true
                · exact ⟨⟨false, "No judge prompt specified"⟩, by
                    simp only [validate_response_intelligent, if_neg hs, hl, hsimple, hjson,
                      hjudge, Bool.false_eq_true, if_false, if_true, hjp]⟩
                · exact ⟨⟨jr.passed, "Judge: " ++ jr.reasoning⟩, by
                    simp only [validate_response_intelligent, if_neg hs, hl, hsimple, hjson,
                      hjudge, Bool.false_eq_true, if_false, if_true,
                      if_neg hjp]⟩
              · exact ⟨⟨false, "Invalid completion rule format"⟩, by
                  simp only [validate_response_intelligent, if_neg hs, hl, hsimple, hjson,
                    hjudge, Bool.false_eq_true, if_false]⟩
        | null => exact Bool.noConfusion hwf
        | bool b => exact Bool.noConfusion hwf
        | int m => exact Bool.noConfusion hwf
        | str s => exact Bool.noConfusion hwf
        | arr l => exact Bool.noConfusion hwf
  · intro spec kvs hs hl hsimple hjson hjudge
    simp only [validate_response_intelligent, if_neg hs, hl, hsimple, hjson, hjudge,
      Bool.false_eq_true, if_false]

/-- Concrete instances of `c7_rule_spec_error_recovery`: an unparseable
spec runs as a plain pattern, an unknown rule type fails with the
invalid-format reasoning, and a well-typed JSON rule returns a result
without raising. -/
theorem c7_rule_spec_error_recovery_witness :
    validate_response_intelligent pyReLit ⟨false, ""⟩ "hi" (some "pattern") =
      .ok (validate_simple pyReLit "hi" "pattern") ∧
    validate_response_intelligent pyReLit ⟨false, ""⟩ "hi"
      (some "\x7b\"type\":\"weird\"\x7d") =
      .ok ⟨false, "Invalid completion rule format"⟩ ∧
    (∃ v, validate_response_intelligent pyReLit ⟨false, ""⟩ "hi"
      (some "\x7b\"type\":\"json\",\"schema\":\x7b\"type\":\"number\"\x7d\x7d") = .ok v) :=
  ⟨(c7_rule_spec_error_recovery pyReLit ⟨false, ""⟩ "hi").2.1 "pattern" (by decide) rfl,
   (c7_rule_spec_error_recovery pyReLit ⟨false, ""⟩ "hi").2.2.2
     "\x7b\"type\":\"weird\"\x7d" [("type", .str "weird")] (by decide) rfl rfl rfl rfl,
   (c7_rule_spec_error_recovery pyReLit ⟨false, ""⟩ "hi").2.2.1
     "\x7b\"type\":\"json\",\"schema\":\x7b\"type\":\"number\"\x7d\x7d" rfl⟩

/-- The control-flow flag of one attempt equals its log entry's `passed`
field, in both the normal and the exception path. -/
theorem attemptEntry_passed (env : Env) (st : Step) (prev : String) (k retry : Nat) :
    (attemptEntry env st prev k retry).2 = (attemptEntry env st prev k retry).1.passed := by
  cases h : validate_response_intelligent env.re (env.judge k) (env.response k)
      st.completion_rule with
  | ok v => simp only [attemptEntry, h]
  | error e => simp only [attemptEntry, h]

/-- Every attempt logs the retry index it ran at, in both paths. -/
theorem attemptEntry_retries (env : Env) (st : Step) (prev : String) (k retry : Nat) :
    (attemptEntry env st prev k retry).1.retries = retry := by
  cases h : validate_response_intelligent env.re (env.judge k) (env.response k)
      st.completion_rule with
  | ok v => simp only [attemptEntry, h]
  | error e => simp only [attemptEntry, h]

/-- Every attempt logs the step's order field, in both paths. -/
theorem attemptEntry_step (env : Env) (st : Step) (prev : String) (k retry : Nat) :
    (attemptEntry env st prev k retry).1.step = st.step_order := by
  cases h : validate_response_intelligent env.re (env.judge k) (env.response k)
      st.completion_rule with
  | ok v => simp only [attemptEntry, h]
  | error e => simp only [attemptEntry, h]

/-- One-step unfolding of the retry loop on a failed attempt with
retries remaining. -/
theorem runAttempts_cons (env : Env) (st : Step) (prev : String)
    (k retry n : Nat) (hp : (attemptEntry env st prev k retry).2 = false)
    (hn : n ≠ 0) :
    runAttempts env st prev k retry (n + 1) =
      ((attemptEntry env st prev k retry).1 ::
        (runAttempts env st prev (k + 1) (retry + 1) n).1,
       (runAttempts env st prev (k + 1) (retry + 1) n).2.1,
       (runAttempts env st prev (k + 1) (retry + 1) n).2.2) := by
  simp only [runAttempts, hp, Bool.false_eq_true, if_false, if_neg hn]

/-- Shape of the retry loop's output, for any positive attempt budget:
the log is non-empty with every entry before the last failed, its retry
indices are the contiguous run starting at the loop's starting index,
at most the budget many entries are written, and the verdict is the
last entry's `passed` flag. -/
theorem runAttempts_shape (env : Env) (st : Step) (prev : String) :
    ∀ m k retry : Nat,
      ∃ logs ok k2 pre last,
        runAttempts env st prev k retry (m + 1) = (logs, ok, k2) ∧
        logs = pre ++ [last] ∧
        logs.length ≤ m + 1 ∧
        logs.map (fun e => e.retries) = List.range' retry logs.length ∧
        last.retries = retry + (logs.length - 1) ∧
        (∀ e ∈ pre, e.passed = false) ∧
        ok = last.passed := by
  intro m
  induction m with
  | zero =>
    intro k retry
    cases hp : (attemptEntry env st prev k retry).2 with
    | true =>
      refine ⟨[(attemptEntry env st prev k retry).1], true, k + 1, [],
        (attemptEntry env st prev k retry).1, ?_, rfl, by simp, ?_, ?_, ?_, ?_⟩
      · simp only [runAttempts, hp, if_true]
      · simp [attemptEntry_retries, List.range']
      · simp [attemptEntry_retries]
      · intro e he; cases he
      · exact hp.symm.trans (attemptEntry_passed env st prev k retry)
    | false =>
      refine ⟨[(attemptEntry env st prev k retry).1], false, k + 1, [],
        (attemptEntry env st prev k retry).1, ?_, rfl, by simp, ?_, ?_, ?_, ?_⟩
      · simp only [runAttempts, hp, Bool.false_eq_true, if_false, ite_self]
      · simp [attemptEntry_retries, List.range']
      · simp [attemptEntry_retries]
      · intro e he; cases he
      · exact hp.symm.trans (attemptEntry_passed env st prev k retry)
  | succ n ih =>
    intro k retry
    cases hp : (attemptEntry env st prev k retry).2 with
    | true =>
      refine ⟨[(attemptEntry env st prev k retry).1], true, k + 1, [],
        (attemptEntry env st prev k retry).1, ?_, rfl, by simp, ?_, ?_, ?_, ?_⟩
      · simp only [runAttempts, hp, if_true]
      · simp [attemptEntry_retries, List.range']
      · simp [attemptEntry_retries]
      · intro e he; cases he
      · exact hp.symm.trans (attemptEntry_passed env st prev k retry)
    | false =>
      obtain ⟨logs, ok, k2, pre, last, heq, hsplit, hlen, hmap, hlast, hpre, hok⟩ :=
        ih (k + 1) (retry + 1)
      have hlen1 : 1 ≤ logs.length := by
        rw [hsplit]; simp
      refine ⟨(attemptEntry env st prev k retry).1 :: logs, ok, k2,
        (attemptEntry env st prev k retry).1 :: pre, last, ?_, by rw [hsplit]; rfl,
        ?_, ?_, ?_, ?_, hok⟩
      · rw [runAttempts_cons env st prev k retry (n + 1) hp (Nat.succ_ne_zero n), heq]
      · simp only [List.length_cons]; omega
      · simp only [List.map_cons, hmap, attemptEntry_retries, List.length_cons]
        rfl
      · simp only [List.length_cons, hlast]; omega
      · intro e he
        rcases List.mem_cons.mp he with h | h
        · rw [h]
          exact (attemptEntry_passed env st prev k retry).symm.trans hp
        · exact hpre e h

/-- C1 (claims file): for every step execution, the appended log is a
non-empty list of at most 3 entries whose `retries` indices form the
contiguous run `0, 1, ..., retriesUsed`, with `retriesUsed + 1` entries
in total; every entry before the last failed (so a passing attempt
returns immediately, consuming no further retries), and the step
verdict is exactly the last entry's `passed` flag. -/
theorem c1_attempt_log_shape (env : Env) (st : Step) (prev : String) (k : Nat) :
    ∃ pre last,
      (execute_step env st prev k).1 = pre ++ [last] ∧
      (execute_step env st prev k).1.length ≤ 3 ∧
      (execute_step env st prev k).1.map (fun e => e.retries) =
        List.range (execute_step env st prev k).1.length ∧
      last.retries + 1 = (execute_step env st prev k).1.length ∧
      (∀ e ∈ pre, e.passed = false) ∧
      (execute_step env st prev k).2.1 = last.passed := by
  obtain ⟨logs, ok, k2, pre, last, heq, hsplit, hlen, hmap, hlast, hpre, hok⟩ :=
    runAttempts_shape env st prev 2 k 0
  have hlen1 : 1 ≤ logs.length := by rw [hsplit]; simp
  have hex : execute_step env st prev k = (logs, ok, k2) := heq
  refine ⟨pre, last, ?_, ?_, ?_, ?_, hpre, ?_⟩
  · rw [hex]; exact hsplit
  · rw [hex]; exact hlen
  · rw [hex]
    rw [hmap, List.range_eq_range']
  · rw [hex]; dsimp only; omega
  · rw [hex]; exact hok

/-- Every log entry of the retry loop is the entry of some attempt. -/
theorem runAttempts_mem (env : Env) (st : Step) (prev : String) :
    ∀ (m k retry : Nat) (e : LogEntry),
      e ∈ (runAttempts env st prev k retry m).1 →
      ∃ kk rr, e = (attemptEntry env st prev kk rr).1 := by
  intro m
  induction m with
  | zero =>
    intro k retry e he
    simp only [runAttempts, List.not_mem_nil] at he
  | succ n ih =>
    intro k retry e he
    by_cases hp : (attemptEntry env st prev k retry).2 = true
    · simp only [runAttempts, hp, if_true] at he
      rw [List.mem_singleton] at he
      exact ⟨k, retry, he⟩
    · have hp' : (attemptEntry env st prev k retry).2 = false :=
        Bool.eq_false_iff.mpr hp
      by_cases hn : n = 0
      · subst hn
        simp only [runAttempts, hp', Bool.false_eq_true, if_false, ite_self] at he
        rw [List.mem_singleton] at he
        exact ⟨k, retry, he⟩
      · rw [runAttempts_cons env st prev k retry n hp' hn] at he
        rcases List.mem_cons.mp he with h | h
        · exact ⟨k, retry, h⟩
        · exact ih (k + 1) (retry + 1) e h

/-- An attempt's entry records either the resolved prompt and model (the
normal path) or the raw step fields (the exception path). -/
theorem attemptEntry_prompt_model (env : Env) (st : Step) (prev : String)
    (k retry : Nat) :
    ((attemptEntry env st prev k retry).1.prompt =
        inject_context st.prompt prev (strategyOf st) ∧
      (attemptEntry env st prev k retry).1.model_used =
        some (validate_model st.model)) ∨
    ((attemptEntry env st prev k retry).1.prompt = st.prompt ∧
      (attemptEntry env st prev k retry).1.model_used = st.model) := by
  cases h : validate_response_intelligent env.re (env.judge k) (env.response k)
      st.completion_rule with
  | ok v => exact Or.inl ⟨by simp only [attemptEntry, h], by simp only [attemptEntry, h]⟩
  | error e => exact Or.inr ⟨by simp only [attemptEntry, h], by simp only [attemptEntry, h]⟩

/-- C6 as the code has it: every attempt log entry records either the
fully-resolved prompt (after context injection) and the resolved model
(after allowlist fallback) — the non-throwing path — or the raw prompt
template and the step's raw model field — the path taken when the
attempt throws. -/
theorem c6_log_fields_amended (env : Env) (st : Step) (prev : String) (k : Nat) :
    ∀ e ∈ (execute_step env st prev k).1,
      (e.prompt = inject_context st.prompt prev (strategyOf st) ∧
        e.model_used = some (validate_model st.model)) ∨
      (e.prompt = st.prompt ∧ e.model_used = st.model) := by
  intro e he
  obtain ⟨kk, rr, rfl⟩ := runAttempts_mem env st prev 3 k 0 e he
  exact attemptEntry_prompt_model env st prev kk rr

/-- Shared concrete environment: a fixed gateway response, a rejecting
judge, a constant clock, and the literal-pattern regex model. -/
def envA : Env where
  response := fun _ => "resp"
  judge := fun _ => ⟨false, ""⟩
  clock := fun _ => 0
  re := pyReLit

/-- Step whose completion rule `"5"` makes the validator raise on every
attempt, whose model is off the allowlist, and whose prompt carries the
placeholder. -/
def stepBadRule : Step where
  step_order := 0
  prompt := "Say: \x7b\x7bprevious\x7d\x7d"
  model := some "gpt-99"
  completion_rule := some "5"
  context_strategy := some (some "auto")

/-- C6 counterexample: with previous output `"ctx"`, the resolved prompt
is `"Say: ctx"` and the resolved model is the default `"kimi-k2p5"`, but
the entry logged for the throwing first attempt records the raw template
(placeholder intact) and the raw model `"gpt-99"` — not the resolved
values the claim requires for every entry. -/
theorem c6_log_fields_counterexample :
    ((execute_step envA stepBadRule "ctx" 0).1.map
        (fun e => (e.prompt, e.model_used))).head? =
      some ("Say: \x7b\x7bprevious\x7d\x7d", some "gpt-99") ∧
    inject_context stepBadRule.prompt "ctx" (strategyOf stepBadRule) = "Say: ctx" ∧
    validate_model stepBadRule.model = "kimi-k2p5" ∧
    ("Say: \x7b\x7bprevious\x7d\x7d" : String) ≠ "Say: ctx" ∧
    (some "gpt-99" : Option String) ≠ some "kimi-k2p5" :=
  ⟨rfl, rfl, rfl, by decide, by decide⟩

/-- The entry logged by the first (throwing) attempt of `stepBadRule`. -/
def entryBadRule : LogEntry where
  step := 0
  prompt := "Say: \x7b\x7bprevious\x7d\x7d"
  response := "Error: AttributeError"
  passed := false
  retries := 0
  timestamp := 0
  model_used := some "gpt-99"
  validation_reasoning := "Execution error: AttributeError"

/-- Concrete instance of `c6_log_fields_amended` at the first logged
entry of the throwing step. -/
theorem c6_log_fields_amended_witness :
    (entryBadRule.prompt =
        inject_context stepBadRule.prompt "ctx" (strategyOf stepBadRule) ∧
      entryBadRule.model_used = some (validate_model stepBadRule.model)) ∨
    (entryBadRule.prompt = stepBadRule.prompt ∧
      entryBadRule.model_used = stepBadRule.model) :=
  c6_log_fields_amended envA stepBadRule "ctx" 0 entryBadRule (by decide)

/-- Every entry a step execution appends carries that step's order. -/
theorem execute_step_mem_step (env : Env) (st : Step) (prev : String) (k : Nat) :
    ∀ e ∈ (execute_step env st prev k).1, e.step = st.step_order := by
  intro e he
  obtain ⟨kk, rr, rfl⟩ := runAttempts_mem env st prev 3 k 0 e he
  exact attemptEntry_step env st prev kk rr

/-- Unfolding of the step fold on the empty list. -/
theorem execSteps_nil (env : Env) (prev : String) (acc : List LogEntry) (k : Nat) :
    execSteps env [] prev acc k = (acc, true, k) := rfl

/-- Unfolding of the step fold when the head step fails: the run stops
with the accumulated log extended by that step's entries. -/
theorem execSteps_cons_fail (env : Env) (st : Step) (rest : List Step)
    (prev : String) (acc : List LogEntry) (k : Nat)
    (h : (execute_step env st prev k).2.1 = false) :
    execSteps env (st :: rest) prev acc k =
      (acc ++ (execute_step env st prev k).1, false,
       (execute_step env st prev k).2.2) := by
  simp only [execSteps, h, Bool.false_eq_true, if_false]

/-- Unfolding of the step fold when the head step passes: the fold
continues with the previous output taken from the last accumulated
entry. -/
theorem execSteps_cons_ok (env : Env) (st : Step) (rest : List Step)
    (prev : String) (acc : List LogEntry) (k : Nat)
    (h : (execute_step env st prev k).2.1 = true) :
    execSteps env (st :: rest) prev acc k =
      execSteps env rest
        (match (acc ++ (execute_step env st prev k).1).getLast? with
         | some e => e.response
         | none => prev)
        (acc ++ (execute_step env st prev k).1)
        (execute_step env st prev k).2.2 := by
  simp only [execSteps, h, if_true]

/-- A failing fold decomposes its step list into passed steps `p`, the
failing step `s`, and never-attempted steps `rest`; every produced
entry comes from the accumulator or carries the order of a step in
`p ++ [s]`. -/
theorem execSteps_false (env : Env) :
    ∀ (l : List Step) (prev : String) (acc : List LogEntry) (k : Nat),
      (execSteps env l prev acc k).2.1 = false →
      ∃ (p : List Step) (s : Step) (rest : List Step),
        l = p ++ s :: rest ∧
        ∀ e ∈ (execSteps env l prev acc k).1,
          e ∈ acc ∨ ∃ t : Step, (t ∈ p ∨ t = s) ∧ e.step = t.step_order := by
  intro l
  induction l with
  | nil =>
    intro prev acc k h
    exact Bool.noConfusion h
  | cons st rest ih =>
    intro prev acc k h
    by_cases hok : (execute_step env st prev k).2.1 = true
    · rw [execSteps_cons_ok env st rest prev acc k hok] at h ⊢
      obtain ⟨p', s', rest', hl, hmem⟩ := ih _ _ _ h
      refine ⟨st :: p', s', rest', by rw [hl]; rfl, ?_⟩
      intro e he
      rcases hmem e he with hacc | ⟨t, ht, hstep⟩
      · rcases List.mem_append.mp hacc with h1 | h2
        · exact Or.inl h1
        · exact Or.inr ⟨st, Or.inl (List.mem_cons_self _ _),
            execute_step_mem_step env st prev k e h2⟩
      · refine Or.inr ⟨t, ?_, hstep⟩
        rcases ht with h1 | h1
        · exact Or.inl (List.mem_cons_of_mem _ h1)
        · exact Or.inr h1
    · have hok' : (execute_step env st prev k).2.1 = false :=
        Bool.eq_false_iff.mpr hok
      rw [execSteps_cons_fail env st rest prev acc k hok']
      refine ⟨[], st, rest, rfl, ?_⟩
      intro e he
      rcases List.mem_append.mp he with h1 | h2
      · exact Or.inl h1
      · exact Or.inr ⟨st, Or.inr rfl, execute_step_mem_step env st prev k e h2⟩

/-- C2 (claims file): when a non-empty workflow run returns failure,
the terminal status is `failed`, the sorted step list splits into
attempted steps `p`, the definitively failing step `s`, and
never-attempted later steps; every attempt log entry carries the order
of a step in `p ++ [s]`, and in particular no entry's step order
exceeds the failing step's order `K`. -/
theorem c2_fail_fast (env : Env) (steps : List Step) (stat : String)
    (logs : List LogEntry) (hne : steps ≠ [])
    (hrun : execute env (.ok steps) = (stat, logs, false)) :
    stat = "failed" ∧
    ∃ (p : List Step) (s : Step) (rest : List Step),
      sortSteps steps = p ++ s :: rest ∧
      (∀ e ∈ logs, ∃ t : Step, (t ∈ p ∨ t = s) ∧ e.step = t.step_order) ∧
      (∀ e ∈ logs, e.step ≤ s.step_order) := by
  have hie : steps.isEmpty = false := by
    cases steps with
    | nil => exact absurd rfl hne
    | cons a l => rfl
  simp only [execute, hie, Bool.false_eq_true, if_false] at hrun
  cases hr : (execSteps env (sortSteps steps) "" [] 0).2.1 with
  | true =>
    rw [if_pos hr] at hrun
    have := (Prod.mk.injEq _ _ _ _).mp hrun
    have h2 := (Prod.mk.injEq _ _ _ _).mp this.2
    exact Bool.noConfusion h2.2
  | false =>
    rw [if_neg (by rw [hr]; exact Bool.false_ne_true)] at hrun
    have h1 := (Prod.mk.injEq _ _ _ _).mp hrun
    have h2 := (Prod.mk.injEq _ _ _ _).mp h1.2
    obtain ⟨p, s, rest, hsort, hmem⟩ := execSteps_false env (sortSteps steps) "" [] 0 hr
    have hsorted : List.Sorted (fun a b : Step => a.step_order ≤ b.step_order)
        (sortSteps steps) := by
      haveI hto : IsTotal Step (fun a b => a.step_order ≤ b.step_order) :=
        ⟨fun a b => Int.le_total a.step_order b.step_order⟩
      haveI htr : IsTrans Step (fun a b => a.step_order ≤ b.step_order) :=
        ⟨fun a b c hab hbc => le_trans hab hbc⟩
      exact List.sorted_insertionSort _ _
    rw [hsort] at hsorted
    have hple : ∀ t ∈ p, t.step_order ≤ s.step_order := by
      intro t ht
      exact (List.pairwise_append.mp hsorted).2.2 t ht s (List.mem_cons_self _ _)
    have hlogs : ∀ e ∈ logs, ∃ t : Step, (t ∈ p ∨ t = s) ∧ e.step = t.step_order := by
      intro e he
      rw [← h2.1] at he
      rcases hmem e he with hacc | ht
      · exact absurd hacc (List.not_mem_nil e)
      · exact ht
    refine ⟨h1.1.symm, p, s, rest, hsort, hlogs, ?_⟩
    intro e he
    obtain ⟨t, ht, hstep⟩ := hlogs e he
    rw [hstep]
    rcases ht with h3 | h3
    · exact hple t h3
    · rw [h3]

/-- Two-step workflow whose first step (after sorting by order) can
never validate against `envA`: rule `"xyz"` is not JSON and does not
occur in the fixed response `"resp"`. -/
def stepsFailC2 : List Step :=
  [{ step_order := 2, prompt := "p2", model := none, completion_rule := none,
     context_strategy := none },
   { step_order := 1, prompt := "p1", model := none, completion_rule := some "xyz",
     context_strategy := none }]

/-- Concrete instance of `c2_fail_fast`: the failing run on
`stepsFailC2` under `envA`, with both hypotheses discharged. -/
theorem c2_fail_fast_witness :
    ("failed" : String) = "failed" ∧
    ∃ (p : List Step) (s : Step) (rest : List Step),
      sortSteps stepsFailC2 = p ++ s :: rest ∧
      (∀ e ∈ (execute envA (.ok stepsFailC2)).2.1,
        ∃ t : Step, (t ∈ p ∨ t = s) ∧ e.step = t.step_order) ∧
      (∀ e ∈ (execute envA (.ok stepsFailC2)).2.1, e.step ≤ s.step_order) :=
  c2_fail_fast envA stepsFailC2 "failed" ((execute envA (.ok stepsFailC2)).2.1)
    (by decide) rfl
